import Mathlib

/-!
Verification of `bevy-debug-text-overlay` against its specification

Shallow embedding of the repository's core logic:

* `src/block.rs` — the 1D free-list allocator `Blocks<Id, S>`.  The allocator
  is generic over a `Summable` size type (instantiated at `f32` in the crate,
  always fed with UI pixel heights).  We model sizes as `Nat`; every size
  arithmetic operation the source performs (`+`, guarded `-`, `==`, `>=`,
  comparison with `ZERO`) coincides with exact arithmetic at these values, so
  `Nat` is a faithful instance of the `Summable` interface.
* `src/overlay.rs` — the command channel (`CommandChannels`), the message
  registry (`update_messages_as_per_commands`, `PushList`) and the layout
  scheduler (`layout_messages`).  Entities are modelled as `Nat` handles,
  times (`f64` seconds) as `ℚ`, colors as opaque `Nat` codes.

Each definition mirrors one Rust item; the comments name it.
-/

namespace DebugOverlay

/-! Section on `src/block.rs`: — the block allocator -/

/-- Rust `Block<Id, S>` from `block.rs` (sizes at `S = Nat`): a `Gap` is a void of
the given size, `Full id size` is an occupied run owned by `id`. -/
inductive Block (Id : Type) where
  | gap (size : Nat)
  | full (id : Id) (size : Nat)
deriving DecidableEq, Repr

namespace Block

/-- Rust `Block::size`. -/
def size {Id : Type} : Block Id → Nat
  | .gap s => s
  | .full _ s => s

/-- Rust `Block::has_id`: `matches!(self, Block::Full(self_id, _) if self_id == id)`. -/
def hasId {Id : Type} [DecidableEq Id] (b : Block Id) (id : Id) : Bool :=
  match b with
  | .full selfId _ => decide (selfId = id)
  | .gap _ => false

end Block

/-- The state of `Blocks<Id, S>` is the underlying `Vec<Block<Id, S>>`,
modelled as a list. -/
abbrev BlockSeq (Id : Type) := List (Block Id)

/-- Rust `Vec::splice(a..b, items)`: replace the elements at indices `[a, b)` by
`items`.  (Rust panics when the range is out of bounds; `take`/`drop` clamp
instead.  All splices this development evaluates are in bounds.) -/
def splice {Id : Type} (v : BlockSeq Id) (a b : Nat) (items : BlockSeq Id) : BlockSeq Id :=
  v.take a ++ items ++ v.drop b

/-- The scan loop of `Blocks::cleanup`, accumulating the
`splice_commands : Vec<(usize, usize, S)>`.  State registers: `i` the
enumeration index, `curGap` for `cur_gap`, `gapStart` for `gap_start`.
The arm order and guards mirror the Rust `match` exactly. -/
def cleanupCommands {Id : Type} :
    BlockSeq Id → Nat → Nat → Nat → List (Nat × Nat × Nat)
  | [], _, _, _ => []
  | .gap g :: rest, i, curGap, gapStart =>
    if curGap = 0 then
      cleanupCommands rest (i + 1) (curGap + g) i
    else
      cleanupCommands rest (i + 1) (curGap + g) gapStart
  | .full _ _ :: rest, i, curGap, gapStart =>
    if curGap ≠ 0 ∧ i - gapStart > 1 then
      (gapStart, i, curGap) :: cleanupCommands rest (i + 1) 0 gapStart
    else
      cleanupCommands rest (i + 1) 0 gapStart

/-- The second loop of `Blocks::cleanup`: each recorded command
`(start, end, size)` is applied in order to the *current* vector
(`self.0.splice(start..end, once(Block::Gap(size)))`), exactly as in the
source — the recorded indices are **not** shifted by earlier splices. -/
def applySplices {Id : Type} : List (Nat × Nat × Nat) → BlockSeq Id → BlockSeq Id
  | [], v => v
  | (s, e, sz) :: rest, v => applySplices rest (splice v s e [.gap sz])

/-- Tail of `Blocks::cleanup`: `if matches!(self.0.last(), Some(Block::Gap(_)))
{ self.0.pop() }`. -/
def popTrailingGap {Id : Type} (v : BlockSeq Id) : BlockSeq Id :=
  match v.getLast? with
  | some (.gap _) => v.dropLast
  | _ => v

/-- Rust `Blocks::cleanup`. -/
def cleanup {Id : Type} (v : BlockSeq Id) : BlockSeq Id :=
  popTrailingGap (applySplices (cleanupCommands v 0 0 0) v)

/-- Rust `Blocks::first_gap_of_size`: index and size of the first `Gap` whose size
is `>= size` (the `Gap { index, gap_size }` struct is modelled as a pair). -/
def firstGapOfSize {Id : Type} : BlockSeq Id → Nat → Option (Nat × Nat)
  | [], _ => none
  | .gap g :: rest, size =>
    if g ≥ size then some (0, g)
    else (firstGapOfSize rest size).map (fun p => (p.1 + 1, p.2))
  | .full _ _ :: rest, size =>
    (firstGapOfSize rest size).map (fun p => (p.1 + 1, p.2))

/-- Rust `Blocks::replace_gap`.  Match arms in source order: a strictly larger gap
is spliced into `[Full(id, size), Gap(gap_size - size)]` followed by
`cleanup`; an exactly-fitting gap is overwritten in place; with no gap the
block is pushed at the end. -/
def replaceGap {Id : Type} (v : BlockSeq Id) (gap : Option (Nat × Nat))
    (id : Id) (size : Nat) : BlockSeq Id :=
  match gap with
  | some (index, gapSize) =>
    if gapSize > size then
      cleanup (splice v index (index + 1) [.full id size, .gap (gapSize - size)])
    else
      v.set index (.full id size)
  | none => v ++ [.full id size]

/-- Rust `Blocks::insert_size`: returns the pair (returned offset, new state).
As in the source, the offset is the sum of the sizes of the first `start`
blocks of the *already mutated* vector, where `start` is the chosen gap's
index (or the pre-insertion length when appending). -/
def insertSize {Id : Type} (v : BlockSeq Id) (id : Id) (size : Nat) :
    Nat × BlockSeq Id :=
  let gapRange := firstGapOfSize v size
  let oldLen := v.length
  let v' := replaceGap v gapRange id size
  let start := match gapRange with
    | some (index, _) => index
    | none => oldLen
  (((v'.take start).map Block.size).sum, v')

/-- The in-place update `*to_remove = Block::Gap(to_remove.size())` applied to
the first block matching `has_id` (`iter_mut().find`). -/
def freeFirst {Id : Type} [DecidableEq Id] : BlockSeq Id → Id → BlockSeq Id
  | [], _ => []
  | b :: rest, id =>
    if b.hasId id then Block.gap b.size :: rest
    else b :: freeFirst rest id

/-- Rust `Blocks::remove`: free the first block owned by `id` (if any), then
`cleanup` — unconditionally, exactly as in the source. -/
def removeId {Id : Type} [DecidableEq Id] (v : BlockSeq Id) (id : Id) : BlockSeq Id :=
  cleanup (freeFirst v id)

/-! Reachability: sequences of allocator calls -/

/-- One public allocator call. -/
inductive AllocOp (Id : Type) where
  | insert (id : Id) (size : Nat)
  | remove (id : Id)
deriving DecidableEq, Repr

/-- Apply one call, discarding `insert_size`'s return value. -/
def applyOp {Id : Type} [DecidableEq Id] (v : BlockSeq Id) : AllocOp Id → BlockSeq Id
  | .insert id s => (insertSize v id s).2
  | .remove id => removeId v id

/-- Run a series of calls from a starting sequence. -/
def applyOps {Id : Type} [DecidableEq Id] (v : BlockSeq Id)
    (ops : List (AllocOp Id)) : BlockSeq Id :=
  ops.foldl applyOp v

/-- The offset of the (first) `Full` block owned by `id`: the sum of the sizes
of all blocks preceding it, `none` when `id` owns no block. -/
def offsetOf {Id : Type} [DecidableEq Id] : BlockSeq Id → Id → Option Nat
  | [], _ => none
  | .gap s :: rest, id => (offsetOf rest id).map (s + ·)
  | .full i s :: rest, id =>
    if i = id then some 0 else (offsetOf rest id).map (s + ·)

/-- Predicate for no two consecutive `Gap` blocks (first half of the cleanup invariant). -/
def noAdjacentGaps {Id : Type} : BlockSeq Id → Bool
  | [] => true
  | [_] => true
  | .gap _ :: .gap _ :: _ => false
  | _ :: rest => noAdjacentGaps rest

/-- Predicate for the last block (if any) not being a `Gap` (second half of the
cleanup invariant). -/
def noTrailingGap {Id : Type} (v : BlockSeq Id) : Bool :=
  match v.getLast? with
  | some (.gap _) => false
  | _ => true

/-! Section on `src/overlay.rs`: — commands, channel, registry, layout -/

/-- Rust `InvocationSiteKey`: the `(file!(), line!(), column!())` triple. -/
structure Key where
  file : String
  line : Nat
  column : Nat
deriving DecidableEq, Repr

/-- Rust `impl fmt::Display for InvocationSiteKey`:
`write!(f, "[{}:{}:{}]", self.file, self.line, self.column)`. -/
def Key.display (k : Key) : String :=
  "[" ++ k.file ++ ":" ++ toString k.line ++ ":" ++ toString k.column ++ "]"

/-- Rust enum `Command`.  Colors are opaque `Nat` codes (`Option<Color>`),
timeouts and times are `ℚ` seconds (`f64` in the source). -/
inductive Cmd where
  | refresh (key : Key) (color : Option Nat) (text : String) (timeout : ℚ)
  | push (color : Option Nat) (text : String) (timeout : ℚ)
deriving DecidableEq, Repr

/-- Constant `MAX_LINES`, the capacity passed to `mpsc::sync_channel`. -/
def MAX_LINES : Nat := 4096

/-- Rust `SyncSender::try_send` on a `sync_channel(MAX_LINES)`: enqueue without
blocking when fewer than `MAX_LINES` commands are outstanding, otherwise
report failure (the queue is modelled as the list of outstanding commands). -/
def trySend (q : List Cmd) (c : Cmd) : Option (List Cmd) :=
  if q.length < MAX_LINES then some (q ++ [c]) else none

/-- The panic message of the `.expect(..)` in `refresh_text` / `push_text`. -/
def panicMsg : String := "Number of debug messages exceeds limit!"

/-- Rust `CommandChannels::refresh_text`: format
`format!("{key} {}\n", text())`, build a `Refresh` command and `try_send` it;
a full queue panics (modelled as `Except.error`). -/
def refreshText (q : List Cmd) (key : Key) (text : String) (timeout : ℚ)
    (color : Option Nat) : Except String (List Cmd) :=
  let t := key.display ++ " " ++ text ++ "\n"
  match trySend q (Cmd.refresh key color t timeout) with
  | some q' => .ok q'
  | none => .error panicMsg

/-- Rust `CommandChannels::push_text`: same formatting, builds a `Push` command
(the key is used only for the text prefix). -/
def pushText (q : List Cmd) (key : Key) (text : String) (timeout : ℚ)
    (color : Option Nat) : Except String (List Cmd) :=
  let t := key.display ++ " " ++ text ++ "\n"
  match trySend q (Cmd.push color t timeout) with
  | some q' => .ok q'
  | none => .error panicMsg

/-- Rust `PushEntry { entity, expired }`. -/
structure PushEntry where
  entity : Nat
  expired : ℚ
deriving DecidableEq, Repr

/-- Index of the first pool entry with `expired < current`
(`self.0.iter_mut().find(|entry| entry.expired < current)`). -/
def firstExpiredIdx (current : ℚ) : List PushEntry → Option Nat
  | [] => none
  | e :: rest =>
    if e.expired < current then some 0
    else (firstExpiredIdx current rest).map (· + 1)

/-- Models the `find` step and in-place `to_update.expired = current + timeout` of
`PushList::new_or_allocate`: returns the found entity (if any) and the pool
with the first expired entry refreshed. -/
def findUpdateExpired (current timeout : ℚ) : List PushEntry → Option Nat × List PushEntry
  | [] => (none, [])
  | e :: rest =>
    if e.expired < current then
      (some e.entity, ⟨e.entity, current + timeout⟩ :: rest)
    else
      let r := findUpdateExpired current timeout rest
      (r.1, e :: r.2)

/-- Rust `PushList::new_or_allocate` with the `spawn_new` closure abstracted to a
fresh-entity counter `next` (the closure's other effects are modelled at the
call site in `applyCmd`).  Returns `(ret, new pool, new counter)`: on reuse
the found entity and an unchanged counter, otherwise `None`, the pool grown
by `PushEntry { entity: spawn_new(), expired: current + timeout }`, and the
counter advanced. -/
def newOrAllocate (pool : List PushEntry) (next : Nat) (current timeout : ℚ) :
    Option Nat × List PushEntry × Nat :=
  match findUpdateExpired current timeout pool with
  | (some ent, pool') => (some ent, pool', next)
  | (none, pool') => (none, pool' ++ [⟨next, current + timeout⟩], next + 1)

/-- The per-entity display state the consumer and the layout scheduler touch:
the `Text` section's value and color, `Message::expiration`, the
`Visibility` component (`true` = `Visible`, `false` = `Hidden`) and
`Style::top` (`none` until the layout scheduler first assigns `Val::Px`). -/
structure Slot where
  text : String
  color : Nat
  expiration : ℚ
  visible : Bool
  top : Option Nat
deriving DecidableEq, Repr

/-- Rust `Options` (the plugin resource); `font_size` only feeds the spawned
`TextStyle` and is not modelled. -/
structure Options where
  color : Nat
deriving DecidableEq, Repr

/-- The state owned by `update_messages_as_per_commands` and
`layout_messages`.  `live` are the entities visible to the systems' `Query`
this tick; `pending` are entities spawned through `Commands` during the
current pass, applied to the world only after the system ends (per the bevy
deferred-command semantics the source's FIXME comment refers to). -/
structure OverlayState where
  live : List (Nat × Slot)
  pending : List (Nat × Slot)
  keyEntities : List (Key × Nat)
  pushPool : List PushEntry
  nextEntity : Nat
deriving DecidableEq, Repr

/-- Rust `HashMap::get` on the `key_entities` map (keys are unique, so an
association list lookup is faithful). -/
def lookupKey (m : List (Key × Nat)) (k : Key) : Option Nat :=
  (m.find? (fun p => decide (p.1 = k))).map (·.2)

/-- The `update_message` closure: `messages.get_mut(entity)` succeeds only
for entities in the query (`live`); on success the expiration, color and text
are overwritten (the source's conditional writes are value-equivalent).
Entities spawned this pass (`pending`) are *not* in the query, so the update
silently does nothing for them — the behaviour the source's FIXME notes. -/
def updateMessage (st : OverlayState) (entity : Nat) (newText : String)
    (newColor : Nat) (timeout now : ℚ) : OverlayState :=
  { st with live := st.live.map (fun p =>
      if p.1 = entity then
        (p.1, { p.2 with text := newText, color := newColor, expiration := timeout + now })
      else p) }

/-- The `spawn_new` closure: a fresh entity with the given text and color,
`Message::new(timeout + current_time)`, `Visibility::Hidden` and no assigned
`top` offset. -/
def spawnNew (st : OverlayState) (text : String) (color : Nat)
    (timeout now : ℚ) : Nat × OverlayState :=
  (st.nextEntity,
   { st with
       pending := st.pending ++
         [(st.nextEntity,
           { text := text, color := color, expiration := timeout + now,
             visible := false, top := none })],
       nextEntity := st.nextEntity + 1 })

/-- One iteration of the drain loop of `update_messages_as_per_commands`. -/
def applyCmd (opts : Options) (now : ℚ) (st : OverlayState) : Cmd → OverlayState
  | .refresh key color text timeout =>
    let c := color.getD opts.color
    match lookupKey st.keyEntities key with
    | some entity => updateMessage st entity text c timeout now
    | none =>
      let r := spawnNew st text c timeout now
      { r.2 with keyEntities := r.2.keyEntities ++ [(key, r.1)] }
  | .push color text timeout =>
    let c := color.getD opts.color
    match findUpdateExpired now timeout st.pushPool with
    | (some entity, pool') =>
      updateMessage { st with pushPool := pool' } entity text c timeout now
    | (none, pool') =>
      let r := spawnNew st text c timeout now
      { r.2 with pushPool := pool' ++ [⟨r.1, now + timeout⟩] }

/-- The whole drain (`for message in iterator.try_iter()`): commands are
processed in queue order within one tick. -/
def processCommands (cmds : List Cmd) (now : ℚ) (opts : Options)
    (st : OverlayState) : OverlayState :=
  cmds.foldl (applyCmd opts now) st

/-- The body of the `layout_messages` loop for one queried entity.
`measure e` is the entity's `node.size().y` (supplied by the UI layout).
When `is_visible == is_expired` the visibility flips: a still-valid hidden
message is inserted into the allocator and its `top` set to the returned
offset; an expired visible one is removed.  Otherwise nothing is touched. -/
def layoutSlot (measure : Nat → Nat) (now : ℚ) (blocks : BlockSeq Nat)
    (p : Nat × Slot) : BlockSeq Nat × Slot :=
  let isExpired := decide (p.2.expiration < now)
  if p.2.visible = isExpired then
    if isExpired then
      (removeId blocks p.1, { p.2 with visible := false })
    else
      let r := insertSize blocks p.1 (measure p.1)
      (r.2, { p.2 with visible := true, top := some r.1 })
  else
    (blocks, p.2)

/-- One iteration of the `layout_messages` loop, threading the allocator
state and accumulating the updated entities. -/
def layoutStep (measure : Nat → Nat) (now : ℚ)
    (acc : BlockSeq Nat × List (Nat × Slot)) (p : Nat × Slot) :
    BlockSeq Nat × List (Nat × Slot) :=
  let r := layoutSlot measure now acc.1 p
  (r.1, acc.2 ++ [(p.1, r.2)])

/-- One `layout_messages` tick over the queried entities in iteration order
(bevy leaves the order unspecified; the list order models one admissible
order), threading the `Local<Blocks<Entity, f32>>` state. -/
def layoutTick (measure : Nat → Nat) (now : ℚ)
    (blocks : BlockSeq Nat) (live : List (Nat × Slot)) :
    BlockSeq Nat × List (Nat × Slot) :=
  live.foldl (layoutStep measure now) (blocks, [])

end DebugOverlay

namespace DebugOverlay

/-! Concrete executions used to settle the claims about the allocator.  Each
trace below is a sequence of public `insert_size` / `remove` calls starting
from the empty `Blocks`, as produced by `layout_messages` ticks. -/

/-- Four calls leaving the sequence `[Gap 1]`: a trailing gap survives a
`remove`, because `cleanup`'s scan loop never flushes a gap run at the very
end of the vector and the final `pop` removes only one trailing gap. -/
def c2Trace : List (AllocOp Nat) :=
  [.insert 1 1, .insert 2 1, .remove 1, .remove 2]

/-- Same four calls (listed separately for the idempotent-removal claim);
the reached state `[Gap 1]` contains no block owned by id `3`. -/
def c5Trace : List (AllocOp Nat) :=
  [.insert 1 1, .insert 2 1, .remove 1, .remove 2]

/-- Thirteen calls reaching `[Full 0 1, Gap 1, Gap 1, Gap 3]`: a state with
two adjacent gaps in which the next insertion returns a wrong offset. -/
def c3Trace : List (AllocOp Nat) :=
  [.insert 0 1, .insert 10 1, .insert 20 1, .insert 30 3, .insert 40 1,
   .insert 50 1, .insert 60 1, .remove 10, .remove 30, .remove 50,
   .remove 60, .remove 40, .remove 20]

/-! Entities, expirations and measured heights realising, through
`layout_messages` ticks, the allocator call sequence that destroys the block
of a continuously visible entity.  Entity `8` (height 3) stays unexpired and
`Visible` from the tick at `t = 40` on; when entity `1` expires at the tick
at `t = 50`, the resulting `remove` runs `cleanup` on a dirty sequence whose
two gap runs produce two splice commands, and the second command — applied
with indices recorded against the pre-splice vector — overwrites entity `8`'s
`Full` block. -/

/-- Measured `node.size().y` per entity. -/
def c1Measure : Nat → Nat :=
  fun e => if e = 8 then 3 else if e = 9 then 4 else 1

/-- A freshly spawned slot (hidden, no offset) with the given expiration. -/
def c1Slot (expiration : ℚ) : Slot :=
  { text := "", color := 0, expiration := expiration, visible := false, top := none }

/-- The seven entities present at the first tick. -/
def c1Live0 : List (Nat × Slot) :=
  [(1, c1Slot 45), (2, c1Slot 5), (3, c1Slot 1000), (4, c1Slot 5),
   (5, c1Slot 25), (6, c1Slot 5), (7, c1Slot 15)]

/-- Tick at `t = 0`: all seven messages become visible, inserted in order. -/
def c1Run1 : BlockSeq Nat × List (Nat × Slot) := layoutTick c1Measure 0 [] c1Live0

/-- Tick at `t = 10`: entities 2, 4, 6 have expired and are removed. -/
def c1Run2 : BlockSeq Nat × List (Nat × Slot) := layoutTick c1Measure 10 c1Run1.1 c1Run1.2

/-- Tick at `t = 20`: entity 7 has expired. -/
def c1Run3 : BlockSeq Nat × List (Nat × Slot) := layoutTick c1Measure 20 c1Run2.1 c1Run2.2

/-- Tick at `t = 30`: entity 5 has expired. -/
def c1Run4 : BlockSeq Nat × List (Nat × Slot) := layoutTick c1Measure 30 c1Run3.1 c1Run3.2

/-- Tick at `t = 40`, after entity 8 (expiring at `t = 100`) was spawned:
entity 8 becomes visible at offset 5. -/
def c1Run5 : BlockSeq Nat × List (Nat × Slot) :=
  layoutTick c1Measure 40 c1Run4.1 (c1Run4.2 ++ [(8, c1Slot 100)])

/-- Tick at `t = 50`: entity 1 has expired; its removal corrupts the
allocator state. -/
def c1Run6 : BlockSeq Nat × List (Nat × Slot) := layoutTick c1Measure 50 c1Run5.1 c1Run5.2

/-- Tick at `t = 60`, after entity 9 (height 4, expiring at `t = 1000`) was
spawned: entity 9 is assigned an offset overlapping entity 8's span. -/
def c1Run7 : BlockSeq Nat × List (Nat × Slot) :=
  layoutTick c1Measure 60 c1Run6.1 (c1Run6.2 ++ [(9, c1Slot 1000)])

/-- The slot a given entity holds in a queried-entity list. -/
def slotOf (l : List (Nat × Slot)) (e : Nat) : Option Slot :=
  (l.find? (fun p => decide (p.1 = e))).map (·.2)

/-- Spec-side fit test: a `Gap` whose size is at least the requested size. -/
def fitsGap {Id : Type} (size : Nat) : Block Id → Bool
  | .gap g => decide (size ≤ g)
  | .full _ _ => false

/-- Spec-side placement, written from the claim's words: the chosen block is
the first `Gap` in scan order from index 0 whose size is `≥ size`; a strictly
larger gap is split into `Full id size` followed immediately by a `Gap`
holding the remainder (after which the source's coalesce-and-trim pass runs);
an exactly equal gap is replaced in place; with no gap of sufficient size a
new `Full` block is appended at the end. -/
def insertPlacementSpec {Id : Type} (v : BlockSeq Id) (id : Id) (size : Nat) :
    BlockSeq Id :=
  let i := v.findIdx (fitsGap size)
  match v[i]? with
  | some b =>
    if size < b.size then
      cleanup (v.take i ++ [Block.full id size, Block.gap (b.size - size)] ++ v.drop (i + 1))
    else
      v.set i (Block.full id size)
  | none => v ++ [Block.full id size]

/-- C1.  The no-move invariant fails on the code: across the `layout_messages`
ticks above, entity 8 becomes Visible at the `t = 40` tick with assigned
offset 5 (a `Full 8 3` block at prefix-sum position 5) and stays Visible and
unexpired at every later tick, yet the `remove` call for the *other* id 1 at
the `t = 50` tick destroys entity 8's `Full` block (its offset ceases to
exist), and the insertion for entity 9 at the `t = 60` tick is then assigned
offset 4, overlapping the span `[5, 8)` that entity 8 still occupies on
screen. -/
theorem no_move_invariant_violated :
    offsetOf c1Run5.1 8 = some 5 ∧
    slotOf c1Run5.2 8 =
      some { text := "", color := 0, expiration := 100, visible := true, top := some 5 } ∧
    slotOf c1Run6.2 8 =
      some { text := "", color := 0, expiration := 100, visible := true, top := some 5 } ∧
    offsetOf c1Run6.1 8 = none ∧
    c1Run6.1 = [.gap 2, .full 3 1, .gap 1] ∧
    slotOf c1Run7.2 8 =
      some { text := "", color := 0, expiration := 100, visible := true, top := some 5 } ∧
    slotOf c1Run7.2 9 =
      some { text := "", color := 0, expiration := 1000, visible := true, top := some 4 } := by
  decide

/-- C2.  The cleanup invariant fails on the code: after the fourth call of
`c2Trace` the reachable sequence is `[Gap 1]`, which ends in a `Gap`; and
after the final `remove` of `c3Trace` the reachable sequence
`[Full 0 1, Gap 1, Gap 1, Gap 3]` has two consecutive `Gap` blocks. -/
theorem cleanup_invariant_violated :
    applyOps ([] : BlockSeq Nat) c2Trace = [.gap 1] ∧
    noTrailingGap ([Block.gap 1] : BlockSeq Nat) = false ∧
    applyOps ([] : BlockSeq Nat) c3Trace = [.full 0 1, .gap 1, .gap 1, .gap 3] ∧
    noAdjacentGaps ([Block.full 0 1, .gap 1, .gap 1, .gap 3] : BlockSeq Nat) = false := by
  decide

/-- C3.  The offset returned by `insert_size` is not the pre-mutation prefix
sum on every reachable sequence: on `[Full 0 1, Gap 1, Gap 1, Gap 3]`
(reached by `c3Trace`) the call `insert_size 99 2` chooses the gap at index 3
(the first of size `≥ 2`), whose preceding blocks sum to `1 + 1 + 1 = 3`, but
returns 5 — the sum is taken over the spliced-and-cleaned vector, which has
shrunk below the chosen index. -/
theorem offset_not_prefix_sum :
    applyOps ([] : BlockSeq Nat) c3Trace = [.full 0 1, .gap 1, .gap 1, .gap 3] ∧
    firstGapOfSize ([Block.full 0 1, .gap 1, .gap 1, .gap 3] : BlockSeq Nat) 2 = some (3, 3) ∧
    ((([Block.full 0 1, .gap 1, .gap 1, .gap 3] : BlockSeq Nat).take 3).map Block.size).sum = 3 ∧
    (insertSize ([Block.full 0 1, .gap 1, .gap 1, .gap 3] : BlockSeq Nat) 99 2).1 = 5 ∧
    (insertSize ([Block.full 0 1, .gap 1, .gap 1, .gap 3] : BlockSeq Nat) 99 2).2 =
      [.full 0 1, .gap 2, .full 99 2] := by
  decide

/-- C5.  Removal of an absent id is not the identity on every reachable
sequence: `c5Trace` reaches `[Gap 1]`, id 3 owns no block there, yet
`remove 3` still runs `cleanup`, which pops the trailing gap and returns
`[]`. -/
theorem remove_absent_not_identity :
    applyOps ([] : BlockSeq Nat) c5Trace = [.gap 1] ∧
    ([Block.gap 1] : BlockSeq Nat).any (fun b => b.hasId 3) = false ∧
    removeId ([Block.gap 1] : BlockSeq Nat) 3 = [] ∧
    removeId ([Block.gap 1] : BlockSeq Nat) 3 ≠ [Block.gap 1] := by
  decide

/-- The recursive scan `first_gap_of_size` finds exactly the first index
satisfying the spec-side fit test, together with that block's size. -/
theorem firstGapOfSize_eq_findIdx {Id : Type} (v : BlockSeq Id) (s : Nat) :
    firstGapOfSize v s =
      (v[v.findIdx (fitsGap s)]?).map (fun b => (v.findIdx (fitsGap s), b.size)) := by
  induction v with
  | nil => rfl
  | cons b rest ih =>
    cases b with
    | gap g =>
      by_cases h : g ≥ s
      · simp [firstGapOfSize, fitsGap, List.findIdx_cons, h, Block.size]
      · have h' : ¬ s ≤ g := h
        simp [firstGapOfSize, fitsGap, List.findIdx_cons, h, h', ih, Option.map_map]
        rfl
    | full i sz =>
      simp [firstGapOfSize, fitsGap, List.findIdx_cons, ih, Option.map_map]
      rfl

/-- The state produced by `insert_size` coincides with the claim-worded
first-fit placement. -/
theorem insertSize_state_eq_spec {Id : Type} (v : BlockSeq Id) (id : Id) (size : Nat) :
    (insertSize v id size).2 = insertPlacementSpec v id size := by
  have h := firstGapOfSize_eq_findIdx v size
  unfold insertSize insertPlacementSpec replaceGap
  cases hv : v[v.findIdx (fitsGap size)]? with
  | none =>
    rw [hv] at h
    simp [h, hv]
  | some b =>
    rw [hv] at h
    by_cases hgt : size < b.size
    · simp [h, hv, hgt, splice]
    · simp [h, hv, hgt]

/-- C4.  First-fit placement holds: for every call, the resulting sequence is
the one obtained by choosing the first `Gap` in scan order whose size is
at least `size`, splitting it into `Full id size` immediately followed by the
remainder `Gap` when strictly larger, replacing it in place when exactly
equal, and appending a new `Full` block when no gap fits; and the claim's
concrete scenario computes as stated (ids 1, 2, 3 of sizes 3, 2, 8 go to
offsets 0, 3, 5; after `remove 2`, id 4 of size 1 goes to offset 3 leaving a
gap of size 1, then id 5 of size 1 goes to offset 4 leaving no gap before
id 3's block). -/
theorem first_fit_placement :
    (∀ (Id : Type) (v : BlockSeq Id) (id : Id) (size : Nat),
      (insertSize v id size).2 = insertPlacementSpec v id size) ∧
    insertSize ([] : BlockSeq Nat) 1 3 = (0, [.full 1 3]) ∧
    insertSize [Block.full 1 3] 2 2 = (3, [.full 1 3, .full 2 2]) ∧
    insertSize [Block.full 1 3, .full 2 2] 3 8 =
      (5, [.full 1 3, .full 2 2, .full 3 8]) ∧
    removeId [Block.full 1 3, .full 2 2, .full 3 8] 2 =
      [.full 1 3, .gap 2, .full 3 8] ∧
    insertSize [Block.full 1 3, .gap 2, .full 3 8] 4 1 =
      (3, [.full 1 3, .full 4 1, .gap 1, .full 3 8]) ∧
    insertSize [Block.full 1 3, .full 4 1, .gap 1, .full 3 8] 5 1 =
      (4, [.full 1 3, .full 4 1, .full 5 1, .full 3 8]) :=
  ⟨fun Id v id size => insertSize_state_eq_spec v id size,
   by decide, by decide, by decide, by decide, by decide, by decide⟩

theorem firstExpiredIdx_eq_none_iff (current : ℚ) (pool : List PushEntry) :
    firstExpiredIdx current pool = none ↔ ∀ e ∈ pool, ¬ e.expired < current := by
  induction pool with
  | nil => simp [firstExpiredIdx]
  | cons e rest ih =>
    by_cases h : e.expired < current
    · simp [firstExpiredIdx, h]
    · simp [firstExpiredIdx, h, ih]
      intro _
      exact not_lt.mp h

theorem firstExpiredIdx_spec (current : ℚ) (pool : List PushEntry) :
    ∀ i, firstExpiredIdx current pool = some i →
      ∃ e, pool[i]? = some e ∧ e.expired < current ∧
        ∀ j f, j < i → pool[j]? = some f → ¬ f.expired < current := by
  induction pool with
  | nil => intro i h; simp [firstExpiredIdx] at h
  | cons e rest ih =>
    intro i h
    by_cases he : e.expired < current
    · simp [firstExpiredIdx, he] at h
      subst h
      exact ⟨e, by simp, he, fun j f hj _ => absurd hj (Nat.not_lt_zero j)⟩
    · simp [firstExpiredIdx, he] at h
      obtain ⟨j, hj, rfl⟩ := h
      obtain ⟨f, hf, hfe, hmin⟩ := ih j hj
      refine ⟨f, by simpa using hf, hfe, ?_⟩
      intro k g hk hg
      cases k with
      | zero =>
        simp at hg
        subst hg
        exact he
      | succ k' =>
        refine hmin k' g (by omega) (by simpa using hg)

theorem findUpdateExpired_of_none (current timeout : ℚ) (pool : List PushEntry)
    (h : firstExpiredIdx current pool = none) :
    findUpdateExpired current timeout pool = (none, pool) := by
  induction pool with
  | nil => rfl
  | cons e rest ih =>
    by_cases he : e.expired < current
    · simp [firstExpiredIdx, he] at h
    · simp [firstExpiredIdx, he] at h
      simp [findUpdateExpired, he, ih h]

theorem findUpdateExpired_of_some (current timeout : ℚ) (pool : List PushEntry) :
    ∀ i e, firstExpiredIdx current pool = some i → pool[i]? = some e →
      findUpdateExpired current timeout pool =
        (some e.entity, pool.set i ⟨e.entity, current + timeout⟩) := by
  induction pool with
  | nil => intro i e h; simp [firstExpiredIdx] at h
  | cons a rest ih =>
    intro i e h hget
    by_cases ha : a.expired < current
    · simp [firstExpiredIdx, ha] at h
      subst h
      simp at hget
      subst hget
      simp [findUpdateExpired, ha]
    · simp [firstExpiredIdx, ha] at h
      obtain ⟨j, hj, rfl⟩ := h
      simp at hget
      simp [findUpdateExpired, ha, ih j e hj hget]

/-- C6.  Push recycling: when some pool entry is strictly expired, the first
such entry's entity is reused — its expiration set to `current + timeout` —
no new identity is produced and the pool length is unchanged; when no entry
has `expired < current` (entries expiring exactly at `current` included), a
brand-new entity is spawned and appended, growing the pool by one. -/
theorem push_recycling :
    ∀ (pool : List PushEntry) (next : Nat) (current timeout : ℚ),
      ((∃ e ∈ pool, e.expired < current) →
        ∃ i e, firstExpiredIdx current pool = some i ∧ pool[i]? = some e ∧
          e.expired < current ∧
          (∀ j f, j < i → pool[j]? = some f → ¬ f.expired < current) ∧
          newOrAllocate pool next current timeout =
            (some e.entity, pool.set i ⟨e.entity, current + timeout⟩, next) ∧
          (pool.set i (⟨e.entity, current + timeout⟩ : PushEntry)).length = pool.length) ∧
      ((∀ e ∈ pool, ¬ e.expired < current) →
        newOrAllocate pool next current timeout =
          (none, pool ++ [⟨next, current + timeout⟩], next + 1) ∧
        (pool ++ [(⟨next, current + timeout⟩ : PushEntry)]).length = pool.length + 1) := by
  intro pool next current timeout
  constructor
  · intro hex
    have hnn : ∃ i, firstExpiredIdx current pool = some i := by
      cases hc : firstExpiredIdx current pool with
      | none =>
        rw [firstExpiredIdx_eq_none_iff] at hc
        obtain ⟨e, he, hlt⟩ := hex
        exact absurd hlt (hc e he)
      | some i => exact ⟨i, rfl⟩
    obtain ⟨i, hi⟩ := hnn
    obtain ⟨e, hget, hlt, hmin⟩ := firstExpiredIdx_spec current pool i hi
    refine ⟨i, e, hi, hget, hlt, hmin, ?_, by simp⟩
    unfold newOrAllocate
    rw [findUpdateExpired_of_some current timeout pool i e hi hget]
  · intro hall
    have hn : firstExpiredIdx current pool = none :=
      (firstExpiredIdx_eq_none_iff current pool).mpr hall
    constructor
    · unfold newOrAllocate
      rw [findUpdateExpired_of_none current timeout pool hn]
    · simp

/-- Witness for C6 at concrete pools: `[⟨5, 3⟩, ⟨6, 0⟩]` at time 2 reuses
entity 6 (the first strictly expired entry, at index 1), and `[⟨5, 2⟩]` at
time 2 (expiration exactly equal to now) allocates entity 10 and grows the
pool. -/
theorem push_recycling_witness :
    (∃ i e, firstExpiredIdx 2 [⟨5, 3⟩, ⟨6, 0⟩] = some i ∧
      ([(⟨5, 3⟩ : PushEntry), ⟨6, 0⟩])[i]? = some e ∧
      e.expired < 2 ∧
      (∀ j f, j < i → ([(⟨5, 3⟩ : PushEntry), ⟨6, 0⟩])[j]? = some f → ¬ f.expired < 2) ∧
      newOrAllocate [⟨5, 3⟩, ⟨6, 0⟩] 10 2 7 =
        (some e.entity, ([(⟨5, 3⟩ : PushEntry), ⟨6, 0⟩]).set i ⟨e.entity, 2 + 7⟩, 10) ∧
      (([(⟨5, 3⟩ : PushEntry), ⟨6, 0⟩]).set i (⟨e.entity, 2 + 7⟩ : PushEntry)).length =
        ([(⟨5, 3⟩ : PushEntry), ⟨6, 0⟩]).length) ∧
    (newOrAllocate [⟨5, 2⟩] 10 2 7 = (none, [⟨5, 2⟩] ++ [⟨10, 2 + 7⟩], 10 + 1) ∧
      ([(⟨5, 2⟩ : PushEntry)] ++ [(⟨10, 2 + 7⟩ : PushEntry)]).length =
        ([(⟨5, 2⟩ : PushEntry)]).length + 1) :=
  ⟨(push_recycling [⟨5, 3⟩, ⟨6, 0⟩] 10 2 7).1 (by decide),
   (push_recycling [⟨5, 2⟩] 10 2 7).2 (by decide)⟩

/-- C8.  Queue capacity: the channel holds at most `MAX_LINES = 4096`
outstanding commands; a send through `refresh_text` or `push_text` with
fewer than 4096 outstanding commands enqueues the built command, and a send
with the queue full fails fatally with the source's panic message — without
blocking or retrying (the functions are total on the model; failure is the
`Except.error` result). -/
theorem queue_capacity :
    ∀ (q : List Cmd) (k : Key) (text : String) (timeout : ℚ) (color : Option Nat),
      (q.length < 4096 →
        refreshText q k text timeout color =
          .ok (q ++ [Cmd.refresh k color (k.display ++ " " ++ text ++ "\n") timeout]) ∧
        pushText q k text timeout color =
          .ok (q ++ [Cmd.push color (k.display ++ " " ++ text ++ "\n") timeout])) ∧
      (¬ q.length < 4096 →
        refreshText q k text timeout color = .error panicMsg ∧
        pushText q k text timeout color = .error panicMsg) ∧
      MAX_LINES = 4096 := by
  intro q k text timeout color
  refine ⟨fun h => ?_, fun h => ?_, rfl⟩
  · constructor <;> simp [refreshText, pushText, trySend, MAX_LINES, h]
  · constructor <;> simp [refreshText, pushText, trySend, MAX_LINES, h]

/-- Witness for C8: on the empty queue a `refresh_text` send succeeds, and on
a queue of 4096 outstanding commands both sends fail with the panic
message. -/
theorem queue_capacity_witness :
    (refreshText [] ⟨"a.rs", 1, 2⟩ "hi" 7 none =
      .ok ([] ++ [Cmd.refresh ⟨"a.rs", 1, 2⟩ none
        ((⟨"a.rs", 1, 2⟩ : Key).display ++ " " ++ "hi" ++ "\n") 7]) ∧
     pushText [] ⟨"a.rs", 1, 2⟩ "hi" 7 none =
      .ok ([] ++ [Cmd.push none
        ((⟨"a.rs", 1, 2⟩ : Key).display ++ " " ++ "hi" ++ "\n") 7])) ∧
    (refreshText (List.replicate 4096 (Cmd.push none "x" 0)) ⟨"a.rs", 1, 2⟩ "hi" 7 none =
      .error panicMsg ∧
     pushText (List.replicate 4096 (Cmd.push none "x" 0)) ⟨"a.rs", 1, 2⟩ "hi" 7 none =
      .error panicMsg) :=
  ⟨(queue_capacity [] ⟨"a.rs", 1, 2⟩ "hi" 7 none).1 (by simp),
   (queue_capacity (List.replicate 4096 (Cmd.push none "x" 0))
      ⟨"a.rs", 1, 2⟩ "hi" 7 none).2.1 (by simp only [List.length_replicate]; omega)⟩

/-- C9.  Message text: every command built by `refresh_text` or `push_text`
carries not the caller's formatted string alone but the invocation-site key
rendered as `[file:line:column]`, a space, the caller's text, and a final
newline — for both `Refresh` and `Push` commands. -/
theorem message_text_format :
    ∀ (q q' : List Cmd) (k : Key) (text : String) (timeout : ℚ) (color : Option Nat),
      (refreshText q k text timeout color = .ok q' →
        q' = q ++ [Cmd.refresh k color
          ("[" ++ k.file ++ ":" ++ toString k.line ++ ":" ++ toString k.column ++ "]"
            ++ " " ++ text ++ "\n") timeout]) ∧
      (pushText q k text timeout color = .ok q' →
        q' = q ++ [Cmd.push color
          ("[" ++ k.file ++ ":" ++ toString k.line ++ ":" ++ toString k.column ++ "]"
            ++ " " ++ text ++ "\n") timeout]) := by
  intro q q' k text timeout color
  constructor <;>
  · intro h
    simp only [refreshText, pushText, trySend] at h
    split at h <;> simp_all [Key.display]

/-- Witness for C9: a concrete refresh and push from file `src/main.rs`,
line 10, column 5 with text `hello` store exactly
`"[src/main.rs:10:5] hello\n"`. -/
theorem message_text_format_witness :
    ([] : List Cmd) ++ [Cmd.refresh ⟨"src/main.rs", 10, 5⟩ none "[src/main.rs:10:5] hello\n" 7] =
      [] ++ [Cmd.refresh ⟨"src/main.rs", 10, 5⟩ none
        ("[" ++ "src/main.rs" ++ ":" ++ toString (10 : Nat) ++ ":" ++ toString (5 : Nat) ++ "]"
          ++ " " ++ "hello" ++ "\n") 7] ∧
    ([] : List Cmd) ++ [Cmd.push none "[src/main.rs:10:5] hello\n" 7] =
      [] ++ [Cmd.push none
        ("[" ++ "src/main.rs" ++ ":" ++ toString (10 : Nat) ++ ":" ++ toString (5 : Nat) ++ "]"
          ++ " " ++ "hello" ++ "\n") 7] :=
  ⟨((message_text_format [] _ ⟨"src/main.rs", 10, 5⟩ "hello" 7 none).1 rfl).symm,
   ((message_text_format [] _ ⟨"src/main.rs", 10, 5⟩ "hello" 7 none).2 rfl).symm⟩

/-- C7.  Refresh last-write-wins fails on the code when the key is first seen
in the same drained batch: draining `[Refresh k "A" (timeout 1),
Refresh k "B" (timeout 2)]` at `now = 0` from an empty state spawns the slot
for the *first* command (text `"A"`, expiration `1`), and the second command's
`update_message` finds the entity absent from the tick's query (the spawn is
deferred, as the source's FIXME notes) and silently does nothing: the slot
keeps the earlier command's text and expiration, not the later's. -/
theorem refresh_lww_skipped :
    processCommands
        [Cmd.refresh ⟨"examples/demo.rs", 10, 5⟩ none "A" 1,
         Cmd.refresh ⟨"examples/demo.rs", 10, 5⟩ none "B" 2]
        0 ⟨7⟩ ⟨[], [], [], [], 0⟩ =
      { live := [],
        pending := [(0, { text := "A", color := 7, expiration := 1 + 0,
                          visible := false, top := none })],
        keyEntities := [(⟨"examples/demo.rs", 10, 5⟩, 0)],
        pushPool := [],
        nextEntity := 1 } ∧
    (1 + 0 : ℚ) = 1 ∧ ("A" : String) ≠ "B" ∧ (1 : ℚ) ≠ 2 + 0 :=
  ⟨rfl, by norm_num, by decide, by norm_num⟩

theorem updateMessage_live (st : OverlayState) (e : Nat) (t : String) (c : Nat)
    (tmo now : ℚ) :
    ∀ p ∈ (updateMessage st e t c tmo now).live,
      ∃ s₀, (p.1, s₀) ∈ st.live ∧ p.2.visible = s₀.visible ∧ p.2.top = s₀.top := by
  intro p hp
  simp only [updateMessage, List.mem_map] at hp
  rcases hp with ⟨q, hq, rfl⟩
  refine ⟨q.2, ?_, ?_, ?_⟩
  · by_cases h : q.1 = e
    · have hq' : (q.1, q.2) ∈ st.live := hq
      simpa [h] using hq'
    · simp [h, hq]
  · by_cases h : q.1 = e <;> simp [h]
  · by_cases h : q.1 = e <;> simp [h]

theorem applyCmd_live (opts : Options) (now : ℚ) (st : OverlayState) (c : Cmd) :
    ∀ p ∈ (applyCmd opts now st c).live,
      ∃ s₀, (p.1, s₀) ∈ st.live ∧ p.2.visible = s₀.visible ∧ p.2.top = s₀.top := by
  intro p hp
  cases c with
  | refresh key color text timeout =>
    simp only [applyCmd] at hp
    cases h : lookupKey st.keyEntities key with
    | some e =>
      rw [h] at hp
      exact updateMessage_live st e text (color.getD opts.color) timeout now p hp
    | none =>
      rw [h] at hp
      exact ⟨p.2, hp, rfl, rfl⟩
  | push color text timeout =>
    simp only [applyCmd] at hp
    rcases h : findUpdateExpired now timeout st.pushPool with ⟨ofst, pool2⟩
    rw [h] at hp
    cases ofst with
    | some entity =>
      exact updateMessage_live _ entity text (color.getD opts.color) timeout now p hp
    | none =>
      exact ⟨p.2, hp, rfl, rfl⟩

theorem applyCmd_pending (opts : Options) (now : ℚ) (st : OverlayState) (c : Cmd) :
    ∀ p ∈ (applyCmd opts now st c).pending,
      p ∈ st.pending ∨ (p.2.visible = false ∧ p.2.top = none) := by
  intro p hp
  cases c with
  | refresh key color text timeout =>
    simp only [applyCmd] at hp
    cases h : lookupKey st.keyEntities key with
    | some e =>
      rw [h] at hp
      exact Or.inl hp
    | none =>
      rw [h] at hp
      simp only [spawnNew, List.mem_append, List.mem_singleton] at hp
      rcases hp with hp | hp
      · exact Or.inl hp
      · subst hp
        exact Or.inr ⟨rfl, rfl⟩
  | push color text timeout =>
    simp only [applyCmd] at hp
    rcases h : findUpdateExpired now timeout st.pushPool with ⟨ofst, pool2⟩
    rw [h] at hp
    cases ofst with
    | some entity => exact Or.inl hp
    | none =>
      simp only [spawnNew, List.mem_append, List.mem_singleton] at hp
      rcases hp with hp | hp
      · exact Or.inl hp
      · subst hp
        exact Or.inr ⟨rfl, rfl⟩

theorem processCommands_pending (cmds : List Cmd) (now : ℚ) (opts : Options) :
    ∀ (st : OverlayState) (p : Nat × Slot),
      p ∈ (processCommands cmds now opts st).pending →
      p ∈ st.pending ∨ (p.2.visible = false ∧ p.2.top = none) := by
  induction cmds with
  | nil => exact fun st p hp => Or.inl hp
  | cons c rest ih =>
    intro st p hp
    rcases ih (applyCmd opts now st c) p hp with h | h
    · exact applyCmd_pending opts now st c p h
    · exact Or.inr h

theorem processCommands_live (cmds : List Cmd) (now : ℚ) (opts : Options) :
    ∀ (st : OverlayState) (p : Nat × Slot),
      p ∈ (processCommands cmds now opts st).live →
      ∃ s₀, (p.1, s₀) ∈ st.live ∧ p.2.visible = s₀.visible ∧ p.2.top = s₀.top := by
  induction cmds with
  | nil => exact fun st p hp => ⟨p.2, hp, rfl, rfl⟩
  | cons c rest ih =>
    intro st p hp
    obtain ⟨s₁, hmem, hv, ht⟩ := ih (applyCmd opts now st c) p hp
    obtain ⟨s₀, hmem0, hv0, ht0⟩ := applyCmd_live opts now st c (p.1, s₁) hmem
    exact ⟨s₀, hmem0, hv.trans hv0, ht.trans ht0⟩

theorem layoutSlot_becomes_visible (measure : Nat → Nat) (now : ℚ)
    (blocks : BlockSeq Nat) (p : Nat × Slot)
    (h0 : p.2.visible = false) (h1 : (layoutSlot measure now blocks p).2.visible = true) :
    now ≤ p.2.expiration ∧
    (layoutSlot measure now blocks p).2.top =
      some (insertSize blocks p.1 (measure p.1)).1 ∧
    (layoutSlot measure now blocks p).1 = (insertSize blocks p.1 (measure p.1)).2 := by
  by_cases he : p.2.expiration < now
  · exfalso
    simp [layoutSlot, h0, he] at h1
  · exact ⟨not_lt.mp he, by simp [layoutSlot, h0, he], by simp [layoutSlot, h0, he]⟩

/-- C10.  New slots start hidden: every entity the consumer pass spawns (on
the first `Refresh` for a key, or a `Push` with no expired pool entry) enters
the world with visibility `Hidden` and no assigned offset; the consumer pass
never changes the visibility or offset of any queried entity; and the layout
pass makes a hidden slot `Visible` only when its expiration is `≥ now`, at
which point its offset becomes exactly the value returned by the allocator's
`insert_size` — never within the command-processing pass itself. -/
theorem new_slots_start_hidden :
    (∀ (cmds : List Cmd) (now : ℚ) (opts : Options) (st : OverlayState) (p : Nat × Slot),
        p ∈ (processCommands cmds now opts st).pending →
        p ∈ st.pending ∨ (p.2.visible = false ∧ p.2.top = none)) ∧
    (∀ (cmds : List Cmd) (now : ℚ) (opts : Options) (st : OverlayState) (p : Nat × Slot),
        p ∈ (processCommands cmds now opts st).live →
        ∃ s₀, (p.1, s₀) ∈ st.live ∧ p.2.visible = s₀.visible ∧ p.2.top = s₀.top) ∧
    (∀ (measure : Nat → Nat) (now : ℚ) (blocks : BlockSeq Nat) (p : Nat × Slot),
        p.2.visible = false → (layoutSlot measure now blocks p).2.visible = true →
        now ≤ p.2.expiration ∧
        (layoutSlot measure now blocks p).2.top =
          some (insertSize blocks p.1 (measure p.1)).1 ∧
        (layoutSlot measure now blocks p).1 = (insertSize blocks p.1 (measure p.1)).2) :=
  ⟨fun cmds now opts st p hp => processCommands_pending cmds now opts st p hp,
   fun cmds now opts st p hp => processCommands_live cmds now opts st p hp,
   fun measure now blocks p h0 h1 => layoutSlot_becomes_visible measure now blocks p h0 h1⟩

/-- Witness for C10 at concrete inputs: the slot spawned by a first `Refresh`
is hidden with no offset; a `Refresh` updating an existing entity preserves
its visibility and offset; and a hidden unexpired slot processed by the
layout pass satisfies the transition conclusion. -/
theorem new_slots_start_hidden_witness :
    ((0, ({ text := "A", color := 7, expiration := 1 + 0, visible := false,
            top := none } : Slot)) ∈
        (⟨[], [], [], [], 0⟩ : OverlayState).pending ∨
      (({ text := "A", color := 7, expiration := 1 + 0, visible := false,
          top := none } : Slot).visible = false ∧
       ({ text := "A", color := 7, expiration := 1 + 0, visible := false,
          top := none } : Slot).top = none)) ∧
    (∃ s₀, ((3 : Nat), s₀) ∈
        (⟨[(3, { text := "A", color := 1, expiration := 5, visible := true,
                 top := some 4 })], [], [(⟨"a.rs", 1, 2⟩, 3)], [], 4⟩ : OverlayState).live ∧
      ({ text := "B", color := 7, expiration := 2 + 0, visible := true,
         top := some 4 } : Slot).visible = s₀.visible ∧
      ({ text := "B", color := 7, expiration := 2 + 0, visible := true,
         top := some 4 } : Slot).top = s₀.top) ∧
    ((1 : ℚ) ≤ ({ text := "", color := 0, expiration := 3, visible := false,
                  top := none } : Slot).expiration ∧
      (layoutSlot (fun _ => 2) 1 []
        (0, { text := "", color := 0, expiration := 3, visible := false,
              top := none })).2.top =
        some (insertSize ([] : BlockSeq Nat) 0 ((fun _ => (2 : Nat)) 0)).1 ∧
      (layoutSlot (fun _ => 2) 1 []
        (0, { text := "", color := 0, expiration := 3, visible := false,
              top := none })).1 =
        (insertSize ([] : BlockSeq Nat) 0 ((fun _ => (2 : Nat)) 0)).2) :=
  ⟨new_slots_start_hidden.1 [Cmd.refresh ⟨"a.rs", 1, 2⟩ none "A" 1] 0 ⟨7⟩
      ⟨[], [], [], [], 0⟩ _ (List.Mem.head _),
   new_slots_start_hidden.2.1 [Cmd.refresh ⟨"a.rs", 1, 2⟩ none "B" 2] 0 ⟨7⟩
      ⟨[(3, { text := "A", color := 1, expiration := 5, visible := true,
              top := some 4 })], [], [(⟨"a.rs", 1, 2⟩, 3)], [], 4⟩ _ (List.Mem.head _),
   new_slots_start_hidden.2.2 (fun _ => 2) 1 []
      (0, { text := "", color := 0, expiration := 3, visible := false, top := none })
      rfl (by decide)⟩

end DebugOverlay
